import Mathlib

/-!
Verification of the simulacra turn-based conversational-agent simulation
harness against its specification.

Shallow embedding of the three source files:
* `BaseConversationGenerator.ts` — the `ConversationMessage` protocol and the
  `AgentConversationGenerator` interface;
* `simulationTest.ts` — the Jest test wrapper `simulationTest`;
* the unnamed subprocess helper — `runJestSimulation`.

`SimulationAgent` and `SimulationAgentRunner` are referenced by
`simulationTest.ts` but their source is not in the repository snapshot; their
turn engine is modelled from the specification (sections 4.2 and 4.3), as
noted on each definition.
-/

namespace Simulacra

/-! ## ConversationMessage protocol (BaseConversationGenerator.ts) -/

/-- The two roles appearing in the `role` field of a message. -/
inductive Role where
  | assistant
  | user
deriving DecidableEq, Repr

/-- A raw record with the fields that can occur on a message value:
`role`, optionally `content`, optionally `stopTokenReturned`.  This is the
ambient universe in which the union type `ConversationMessage` carves out its
three shapes. -/
structure RawMessage where
  role : Role
  content : Option String
  stopTokenReturned : Option Bool
deriving DecidableEq, Repr

/-- The shape `\x7b role: 'assistant', content: string \x7d`. -/
def isAssistantShape (m : RawMessage) : Bool :=
  m.role == Role.assistant && m.content.isSome && m.stopTokenReturned == none

/-- The shape `\x7b role: 'user', content: string \x7d`. -/
def isUserContentShape (m : RawMessage) : Bool :=
  m.role == Role.user && m.content.isSome && m.stopTokenReturned == none

/-- The shape `\x7b role: 'user', stopTokenReturned: true \x7d`. -/
def isUserStopShape (m : RawMessage) : Bool :=
  m.role == Role.user && m.content == none && m.stopTokenReturned == some true

/-- Membership in the union type `ConversationMessage`:
`AssistantConversationMessage | UserConversationMessage`, where the user
variant is itself a union of the content shape and the stop-sentinel shape. -/
def isConversationMessage (m : RawMessage) : Bool :=
  isAssistantShape m || isUserContentShape m || isUserStopShape m

/-- `ConversationMessage` as an inductive tagged union: exactly the three
shapes of the source type. -/
inductive ConversationMessage where
  | assistantMsg (content : String)
  | userMsg (content : String)
  | userStop
deriving DecidableEq, Repr

/-- The underlying record of a `ConversationMessage` value. -/
def ConversationMessage.toRaw : ConversationMessage → RawMessage
  | .assistantMsg c => ⟨Role.assistant, some c, none⟩
  | .userMsg c => ⟨Role.user, some c, none⟩
  | .userStop => ⟨Role.user, none, some true⟩

/-- The `role` field of a message. -/
def ConversationMessage.roleOf : ConversationMessage → Role
  | .assistantMsg _ => Role.assistant
  | .userMsg _ => Role.user
  | .userStop => Role.user

/-- Whether a message is the `stopTokenReturned` end-of-conversation
sentinel. -/
def ConversationMessage.isStopSentinel : ConversationMessage → Bool
  | .userStop => true
  | _ => false

/-! ## AgentConversationGenerator (BaseConversationGenerator.ts)

The abstract class declares `generateResponse(input) : Promise<ConversationMessage>`
(and a one-time set-up method taking an optional system prompt).  A rejected
promise is modelled with `Except`: `Except.error` is a rejection carrying the
error message, `Except.ok` a resolved response. -/

/-- An implementation of the abstract class `AgentConversationGenerator`:
any function of the declared type is a valid implementation. -/
structure AgentConversationGenerator where
  generateResponse : ConversationMessage → Except String ConversationMessage

/-- A generator implementation that echoes its input back unchanged.  It is
type-correct for the abstract class: nothing in the interface constrains the
role of the produced message. -/
def echoGenerator : AgentConversationGenerator :=
  ⟨fun m => Except.ok m⟩

/-! ## SimulationAgent and SimulationAgentRunner

Modelled from the spec: the source of `SimulationAgent` and
`SimulationAgentRunner` is not in the repository snapshot (only
`simulationTest.ts` imports them), so the turn engine below follows the
specification, sections 3, 4.2, 4.3 and 5:

* `AgentConstructorArgs`: role identity, task description, an
  input-production function, and `maxTurns` (section 3); the deterministic
  generator is a pure function of the 1-based turn index (section 4.1), where
  `inputFn n` is the message produced on turn `n`.
* `runTurn` on turn `n` emits `turnStart n`, invokes the generator, emits
  `turnEnd n` (section 4.2); terminal conditions are checked in precedence
  order: the stop sentinel gives `conversationEnd` with reason "stop-token",
  `n` reaching `maxTurns` gives reason "max-turns".
* `runAllTurns` drives turns from turn 1 until a terminal condition, emitting
  events synchronously in sequence (section 4.3, section 5). -/

/-- Why a run ended: the generator returned the stop sentinel, or the turn
counter reached `maxTurns`. -/
inductive EndReason where
  | stopToken
  | maxTurns
deriving DecidableEq, Repr

/-- A lifecycle event emitted by the agent, tagged with the 1-based turn
number it belongs to. -/
inductive AgentEvent where
  | turnStart (n : Nat)
  | turnEnd (n : Nat)
  | conversationEnd (reason : EndReason) (turn : Nat)
deriving DecidableEq, Repr

/-- Whether an event is a `turnStart`. -/
def AgentEvent.isTurnStartEv : AgentEvent → Bool
  | .turnStart _ => true
  | _ => false

/-- Whether an event is a `turnEnd`. -/
def AgentEvent.isTurnEndEv : AgentEvent → Bool
  | .turnEnd _ => true
  | _ => false

/-- Whether an event is a `conversationEnd`. -/
def AgentEvent.isConversationEndEv : AgentEvent → Bool
  | .conversationEnd _ _ => true
  | _ => false

/-- Modelled from the spec: construction-time configuration of an agent
(section 3).  `inputFn` is the deterministic generator as a pure function of
the 1-based turn index. -/
structure AgentConstructorArgs where
  role : String
  task : String
  inputFn : Nat → ConversationMessage
  maxTurns : Nat

/-- Modelled from the spec: the agent owns its construction-time
configuration (section 3). -/
structure SimulationAgent where
  args : AgentConstructorArgs

/-- Modelled from the spec: the runner owns exactly one agent for its
lifetime (section 4.3). -/
structure SimulationAgentRunner where
  agent : SimulationAgent

/-- The runner constructor: builds the agent from the arguments, runs no
turn. -/
def SimulationAgentRunner.create (args : AgentConstructorArgs) : SimulationAgentRunner :=
  ⟨⟨args⟩⟩

/-- `getAgent()`: returns the owned agent. -/
def SimulationAgentRunner.getAgent (r : SimulationAgentRunner) : SimulationAgent :=
  r.agent

/-- Modelled from the spec: the event sequence produced by running turns from
turn `n` with the given remaining-turn fuel; on each turn: `turnStart`,
generator invocation, `turnEnd`, then the terminal check in precedence order
stop-sentinel first, `maxTurns` second (section 4.2). -/
def runTurnsFrom (gen : Nat → ConversationMessage) (maxT : Nat) : Nat → Nat → List AgentEvent
  | _, 0 => []
  | n, fuel + 1 =>
    AgentEvent.turnStart n :: AgentEvent.turnEnd n ::
      (if (gen n).isStopSentinel then [AgentEvent.conversationEnd EndReason.stopToken n]
       else if n = maxT then [AgentEvent.conversationEnd EndReason.maxTurns n]
       else runTurnsFrom gen maxT (n + 1) fuel)

/-- Modelled from the spec: `runAllTurns()` drives the agent from turn 1
until a terminal condition or `maxTurns` exhaustion (section 4.3), returning
the full event sequence emitted during the run. -/
def SimulationAgentRunner.runAllTurns (r : SimulationAgentRunner) : List AgentEvent :=
  runTurnsFrom r.agent.args.inputFn r.agent.args.maxTurns 1 r.agent.args.maxTurns

/-- The event sequence of `k` consecutive completed turns starting at turn
`a`: `turnStart a, turnEnd a, turnStart (a+1), …`. -/
def turnsSeg : Nat → Nat → List AgentEvent
  | _, 0 => []
  | a, k + 1 =>
    AgentEvent.turnStart a :: AgentEvent.turnEnd a :: turnsSeg (a + 1) k

/-! ## simulationTest (simulationTest.ts)

The Jest test body is embedded as a trace-producing function.  The setup
callback `fn` is abstracted by its observable outcome: whether it completed
or threw, the logs it left behind, and the event handlers it registered on
`agent.events` (which the run then invokes synchronously at each emitted
event). -/

/-- One step the test body performs, in the order the source performs them;
agent lifecycle events emitted during `runAllTurns()` are embedded with
`agentEvent`. -/
inductive TestAction where
  | constructRunner
  | getAgent
  | setupStart
  | setupEnd
  | invokeRunAllTurns
  | agentEvent (e : AgentEvent)
deriving DecidableEq, Repr

/-- The `SimulationContext` handed to the setup callback: the agent and the
logs array. -/
structure SimulationContext where
  agent : SimulationAgent
  logs : List String

/-- The observable outcome of running the setup callback on a context:
`err` is `some e` when the callback threw (its promise rejected with) `e`;
`logsOut` is the logs content when the callback finished or threw; `handler`
is the combined effect on logs of the event handlers it registered, invoked
at each emitted agent event. -/
structure SetupOutcome (E : Type) where
  err : Option E
  logsOut : List String
  handler : AgentEvent → List String → List String

/-- The result of a test-body execution: the trace of actions performed, the
final logs content, and the error the body rejected with, if any. -/
structure TestRunResult (E : Type) where
  trace : List TestAction
  logs : List String
  err : Option E

/-- The context the test body builds before invoking the setup callback:
the agent obtained from `getAgent()` on the freshly constructed runner, and a
fresh empty logs array. -/
def initialContext (agentArgs : AgentConstructorArgs) : SimulationContext :=
  ⟨(SimulationAgentRunner.create agentArgs).getAgent, []⟩

/-- The body of the Jest test created by `simulationTest`: create the logs
array and the runner, obtain the agent, hand the context to the setup
callback and await it; if it threw, the body rejects with that error and
nothing else runs; otherwise invoke `runAllTurns()`, during which each
emitted event is also applied to the logs through the registered handlers. -/
def simulationTestBody {E : Type} (agentArgs : AgentConstructorArgs)
    (fn : SimulationContext → SetupOutcome E) : TestRunResult E :=
  let out := fn (initialContext agentArgs)
  match out.err with
  | some e =>
    ⟨[TestAction.constructRunner, TestAction.getAgent, TestAction.setupStart],
     out.logsOut, some e⟩
  | none =>
    let events := (SimulationAgentRunner.create agentArgs).runAllTurns
    ⟨[TestAction.constructRunner, TestAction.getAgent, TestAction.setupStart,
      TestAction.setupEnd, TestAction.invokeRunAllTurns] ++
        events.map TestAction.agentEvent,
     events.foldl (fun l ev => out.handler ev l) out.logsOut, none⟩

/-! ## runJestSimulation (the unnamed subprocess helper)

The helper destructures `args` out of its options, builds the argument list
`[jestBin, testFile, '--no-color', ...args]`, and invokes the external
process invoker with the defaults `reject: false, stdout: 'pipe',
stderr: 'pipe'` spread before the caller's remaining options. -/

/-- A JavaScript option value: a boolean, a string, or a string array. -/
inductive JSVal where
  | bool (b : Bool)
  | str (s : String)
  | strs (l : List String)
deriving DecidableEq, Repr

/-- JavaScript truthiness of an option value. -/
def JSVal.truthy : JSVal → Bool
  | .bool b => b
  | .str s => !(s == "")
  | .strs _ => true

/-- An options object: an association of property names to values (each name
occurring at most once in a JavaScript object; lookup takes the first
binding). -/
abbrev JSOptions : Type := List (String × JSVal)

/-- The value of property `k` on an options object. -/
def JSOptions.lookupKey : JSOptions → String → Option JSVal
  | [], _ => none
  | p :: rest, k => if p.1 == k then some p.2 else JSOptions.lookupKey rest k

/-- The path `require.resolve('jest/bin/jest')` resolves to, treated as an
opaque constant string. -/
def jestBinPath : String := "jest/bin/jest"

/-- The `args` extracted by `const \x7b args = [], ...execaOptions \x7d = options`:
the caller's `args` array, defaulting to `[]` when absent (the TypeScript
interface types `args` as `string[]`). -/
def argsOf (options : JSOptions) : List String :=
  match options.lookupKey "args" with
  | some (JSVal.strs l) => l
  | _ => []

/-- The rest-object `execaOptions` from the destructuring: every property of
`options` except `args`. -/
def execaOptionsOf (options : JSOptions) : JSOptions :=
  List.filter (fun p => !(p.1 == "args")) options

/-- The defaults the helper spreads first:
`reject: false, stdout: 'pipe', stderr: 'pipe'`. -/
def defaultsExeca (k : String) : Option JSVal :=
  if k == "reject" then some (JSVal.bool false)
  else if k == "stdout" then some (JSVal.str "pipe")
  else if k == "stderr" then some (JSVal.str "pipe")
  else none

/-- The merged options object handed to the process invoker, as a lookup
function: the spread `\x7b reject: false, stdout: 'pipe', stderr: 'pipe',
...execaOptions \x7d`, so a property of `execaOptionsOf options` wins over a
default. -/
def mergedOpts (options : JSOptions) (k : String) : Option JSVal :=
  match (execaOptionsOf options).lookupKey k with
  | some v => some v
  | none => defaultsExeca k

/-- The argument list handed to the process invoker:
`[jestBin, testFile, '--no-color', ...args]`. -/
def jestArgv (testFile : String) (options : JSOptions) : List String :=
  [jestBinPath, testFile, "--no-color"] ++ argsOf options

/-- What the spawned subprocess does: its exit status and captured output. -/
structure ProcBehavior where
  exitCode : Nat
  stdout : String
  stderr : String
deriving DecidableEq, Repr

/-- The value the process invoker resolves (or rejects) with. -/
structure ExecaResult where
  exitCode : Nat
  stdout : String
  stderr : String
  command : String
  commandArgs : List String
deriving DecidableEq, Repr

/-- Modelled from the spec: the external process invoker (execa) is an
external collaborator, not part of this repository; section 6 describes the
helper's use of its documented interface.  It runs the command on the given
subprocess behavior and builds the result from the captured exit status and
output; when the `reject` option is truthy (its documented default `true`)
and the exit status is non-zero, the returned promise rejects with the
result instead of resolving. -/
def execa (cmd : String) (argv : List String) (opts : String → Option JSVal)
    (proc : ProcBehavior) : Except ExecaResult ExecaResult :=
  let rejectVal := (opts "reject").getD (JSVal.bool true)
  let res : ExecaResult := ⟨proc.exitCode, proc.stdout, proc.stderr, cmd, argv⟩
  if rejectVal.truthy && !(proc.exitCode == 0) then Except.error res else Except.ok res

/-- `runJestSimulation(testFile, options)` on a subprocess that behaves as
`proc`: invoke `node` on `[jestBin, testFile, '--no-color', ...args]` with
the defaults spread before the caller's remaining options, and return the
invoker's result. -/
def runJestSimulation (testFile : String) (options : JSOptions)
    (proc : ProcBehavior) : Except ExecaResult ExecaResult :=
  execa "node" (jestArgv testFile options) (mergedOpts options) proc

/-! ## Concrete instances used to exercise the theorems -/

/-- A deterministic generator that answers every turn with a content-bearing
assistant message and never returns the stop sentinel. -/
def genConstOk : Nat → ConversationMessage :=
  fun _ => ConversationMessage.assistantMsg "ok"

/-- A deterministic generator scripted to return the stop sentinel on turn 2
and content-bearing assistant messages before that. -/
def genStopAt2 : Nat → ConversationMessage :=
  fun i => if i = 2 then ConversationMessage.userStop else ConversationMessage.assistantMsg "ok"

/-- Constructor arguments with `maxTurns = 3` and the never-stopping
generator. -/
def argsMax3 : AgentConstructorArgs :=
  ⟨"test", "example", genConstOk, 3⟩

/-- A setup callback that completes normally, registers no handler effect and
leaves no log. -/
def fnOkW : SimulationContext → SetupOutcome String :=
  fun _ => ⟨none, [], fun _ l => l⟩

/-- A setup callback that throws "boom" after leaving one log entry. -/
def fnErrW : SimulationContext → SetupOutcome String :=
  fun _ => ⟨some "boom", ["before-crash"], fun _ l => l⟩

/-- The stop-sentinel shape as a raw record. -/
def rawUserStop : RawMessage :=
  ⟨Role.user, none, some true⟩

end Simulacra

namespace Simulacra

/-! ## Properties of the turn segments -/

/-- A `turnStart j` event occurs in the segment of turns `a, …, a + k - 1`
exactly when `a ≤ j < a + k`. -/
theorem turnsSeg_turnStart_mem : ∀ (k a j : Nat), AgentEvent.turnStart j ∈ turnsSeg a k ↔ a ≤ j ∧ j < a + k := by
  intro k
  induction k with
  | zero => intro a j; simp [turnsSeg]
  | succ k ih => intro a j; simp [turnsSeg, ih]; omega

/-- The segment of `k` turns holds exactly `k` `turnStart` events. -/
theorem turnsSeg_countP_turnStart : ∀ (k a : Nat), (turnsSeg a k).countP AgentEvent.isTurnStartEv = k := by
  intro k
  induction k with
  | zero => intro a; rfl
  | succ k ih =>
    intro a
    simp [turnsSeg, List.countP_cons, ih, AgentEvent.isTurnStartEv]

/-- The segment of `k` turns holds exactly `k` `turnEnd` events. -/
theorem turnsSeg_countP_turnEnd : ∀ (k a : Nat), (turnsSeg a k).countP AgentEvent.isTurnEndEv = k := by
  intro k
  induction k with
  | zero => intro a; rfl
  | succ k ih =>
    intro a
    simp [turnsSeg, List.countP_cons, ih, AgentEvent.isTurnEndEv]

/-- No `conversationEnd` event occurs inside a turn segment. -/
theorem turnsSeg_conversationEnd_not_mem :
    ∀ (k a : Nat) (r : EndReason) (t : Nat), AgentEvent.conversationEnd r t ∉ turnsSeg a k := by
  intro k
  induction k with
  | zero => intro a r t; simp [turnsSeg]
  | succ k ih => intro a r t; simp [turnsSeg, ih]

/-! ## Closed forms of the turn engine -/

/-- When the generator never returns the stop sentinel, running from turn `n`
with the matching fuel produces the full segment of turns `n, …, maxT`
followed by a single `conversationEnd` with reason "max-turns" at turn
`maxT`. -/
theorem runTurnsFrom_noStop (gen : Nat → ConversationMessage) (maxT : Nat)
    (hg : ∀ i, (gen i).isStopSentinel = false) :
    ∀ (fuel n : Nat), n + fuel = maxT + 1 → 1 ≤ fuel →
      runTurnsFrom gen maxT n fuel =
        turnsSeg n fuel ++ [AgentEvent.conversationEnd EndReason.maxTurns maxT] := by
  intro fuel
  induction fuel with
  | zero => intro n h1 h2; omega
  | succ f ih =>
    intro n h1 _
    by_cases hf : f = 0
    · subst hf
      have hn : n = maxT := by omega
      subst hn
      simp [runTurnsFrom, turnsSeg, hg]
    · have hne : ¬ n = maxT := by omega
      have h2 : (n + 1) + f = maxT + 1 := by omega
      have h3 : 1 ≤ f := by omega
      simp [runTurnsFrom, hg, hne, ih (n + 1) h2 h3, turnsSeg]

/-- When the generator first returns the stop sentinel on turn `k ≤ maxT`,
running from turn `n ≤ k` with the matching fuel produces the segment of
turns `n, …, k` followed by a single `conversationEnd` with reason
"stop-token" at turn `k`. -/
theorem runTurnsFrom_stopAt (gen : Nat → ConversationMessage) (maxT k : Nat)
    (hstop : (gen k).isStopSentinel = true)
    (hbefore : ∀ i, i < k → (gen i).isStopSentinel = false) :
    ∀ (fuel n : Nat), n + fuel = maxT + 1 → n ≤ k → k ≤ maxT →
      runTurnsFrom gen maxT n fuel =
        turnsSeg n (k + 1 - n) ++ [AgentEvent.conversationEnd EndReason.stopToken k] := by
  intro fuel
  induction fuel with
  | zero => intro n h1 h2 h3; omega
  | succ f ih =>
    intro n h1 h2 h3
    by_cases hn : n = k
    · subst hn
      have e1 : n + 1 - n = 1 := by omega
      simp [runTurnsFrom, hstop, e1, turnsSeg]
    · have hlt : n < k := by omega
      have hne : ¬ n = maxT := by omega
      have h2' : (n + 1) + f = maxT + 1 := by omega
      have e1 : k + 1 - n = (k - n) + 1 := by omega
      have e2 : k + 1 - (n + 1) = k - n := by omega
      have hg : (gen n).isStopSentinel = false := hbefore n hlt
      rw [runTurnsFrom, hg]
      rw [ih (n + 1) h2' (by omega) h3, e1, e2]
      simp [hne, turnsSeg]

/-- C2: for every `maxTurns = n ≥ 1`, a run driven by `runAllTurns()` with a
deterministic generator that never returns the stop sentinel terminates
after exactly `n` turns — the event sequence is the full segment of turns
`1, …, n` (so exactly `n` `turnStart` and `n` `turnEnd` events) followed by
a final `conversationEnd` event with reason "max-turns". -/
theorem runAllTurns_maxTurns_exact (role task : String) (gen : Nat → ConversationMessage)
    (n : Nat) (h1 : 1 ≤ n) (hg : ∀ i, (gen i).isStopSentinel = false) :
    (SimulationAgentRunner.create ⟨role, task, gen, n⟩).runAllTurns =
        turnsSeg 1 n ++ [AgentEvent.conversationEnd EndReason.maxTurns n] ∧
    ((SimulationAgentRunner.create ⟨role, task, gen, n⟩).runAllTurns).countP
        AgentEvent.isTurnStartEv = n ∧
    ((SimulationAgentRunner.create ⟨role, task, gen, n⟩).runAllTurns).countP
        AgentEvent.isTurnEndEv = n := by
  have hc : (SimulationAgentRunner.create ⟨role, task, gen, n⟩).runAllTurns =
      turnsSeg 1 n ++ [AgentEvent.conversationEnd EndReason.maxTurns n] := by
    show runTurnsFrom gen n 1 n = _
    exact runTurnsFrom_noStop gen n hg n 1 (by omega) h1
  refine ⟨hc, ?_, ?_⟩ <;>
    simp [hc, List.countP_append, turnsSeg_countP_turnStart, turnsSeg_countP_turnEnd,
      List.countP_cons, AgentEvent.isTurnStartEv, AgentEvent.isTurnEndEv]

/-- Witness for C2: `maxTurns = 3` with the never-stopping deterministic
generator gives exactly 3 turns and a final "max-turns" conversation end. -/
theorem runAllTurns_maxTurns_exact_witness :
    (1 ≤ 3 ∧ ∀ i, (genConstOk i).isStopSentinel = false) ∧
    ((SimulationAgentRunner.create ⟨"test", "example", genConstOk, 3⟩).runAllTurns =
        turnsSeg 1 3 ++ [AgentEvent.conversationEnd EndReason.maxTurns 3] ∧
     ((SimulationAgentRunner.create ⟨"test", "example", genConstOk, 3⟩).runAllTurns).countP
         AgentEvent.isTurnStartEv = 3 ∧
     ((SimulationAgentRunner.create ⟨"test", "example", genConstOk, 3⟩).runAllTurns).countP
         AgentEvent.isTurnEndEv = 3) :=
  ⟨⟨by decide, fun _ => rfl⟩,
   runAllTurns_maxTurns_exact "test" "example" genConstOk 3 (by decide) (fun _ => rfl)⟩

/-- C3: for every deterministic generator scripted to return the stop
sentinel on turn `k` with `1 ≤ k ≤ maxTurns` (and not before), the run
terminates at turn `k` — the event sequence is the segment of turns
`1, …, k` followed by a final `conversationEnd` event with reason
"stop-token" at turn `k` — and no `turnStart` event for turn `k + 1` is ever
emitted. -/
theorem runAllTurns_stopToken_exact (role task : String) (gen : Nat → ConversationMessage)
    (maxT k : Nat) (h1 : 1 ≤ k) (h2 : k ≤ maxT)
    (hstop : (gen k).isStopSentinel = true)
    (hbefore : ∀ i, i < k → (gen i).isStopSentinel = false) :
    (SimulationAgentRunner.create ⟨role, task, gen, maxT⟩).runAllTurns =
        turnsSeg 1 k ++ [AgentEvent.conversationEnd EndReason.stopToken k] ∧
    ((SimulationAgentRunner.create ⟨role, task, gen, maxT⟩).runAllTurns).countP
        AgentEvent.isTurnStartEv = k ∧
    AgentEvent.turnStart (k + 1) ∉
      (SimulationAgentRunner.create ⟨role, task, gen, maxT⟩).runAllTurns := by
  have hc : (SimulationAgentRunner.create ⟨role, task, gen, maxT⟩).runAllTurns =
      turnsSeg 1 k ++ [AgentEvent.conversationEnd EndReason.stopToken k] := by
    show runTurnsFrom gen maxT 1 maxT = _
    have h := runTurnsFrom_stopAt gen maxT k hstop hbefore maxT 1 (by omega) h1 h2
    have e : k + 1 - 1 = k := by omega
    rw [e] at h
    exact h
  refine ⟨hc, ?_, ?_⟩
  · simp [hc, List.countP_append, turnsSeg_countP_turnStart, List.countP_cons,
      AgentEvent.isTurnStartEv]
  · rw [hc]
    simp [turnsSeg_turnStart_mem]
    omega

/-- Witness for C3: `maxTurns = 5` with the generator scripted to stop on
turn 2 gives the two-turn segment, a final "stop-token" conversation end at
turn 2, and no `turnStart` for turn 3. -/
theorem runAllTurns_stopToken_exact_witness :
    (1 ≤ 2 ∧ 2 ≤ 5 ∧ (genStopAt2 2).isStopSentinel = true ∧
      ∀ i, i < 2 → (genStopAt2 i).isStopSentinel = false) ∧
    ((SimulationAgentRunner.create ⟨"test", "example", genStopAt2, 5⟩).runAllTurns =
        turnsSeg 1 2 ++ [AgentEvent.conversationEnd EndReason.stopToken 2] ∧
     ((SimulationAgentRunner.create ⟨"test", "example", genStopAt2, 5⟩).runAllTurns).countP
         AgentEvent.isTurnStartEv = 2 ∧
     AgentEvent.turnStart 3 ∉
       (SimulationAgentRunner.create ⟨"test", "example", genStopAt2, 5⟩).runAllTurns) :=
  ⟨⟨by decide, by decide, by decide, by intro i hi; interval_cases i <;> rfl⟩,
   runAllTurns_stopToken_exact "test" "example" genStopAt2 5 2 (by decide) (by decide)
     (by decide) (by intro i hi; interval_cases i <;> rfl)⟩

/-! ## Properties of the test body -/

/-- C1: when the setup callback completes, the test body created by
`simulationTest` performs, in this order: construct the runner, obtain the
agent with `getAgent()`, start and finish the setup callback — invoked on a
context holding that agent and the logs array — and only then invoke
`runAllTurns()`; everything after those five steps is an agent lifecycle
event, so the setup callback completes before the first turn begins. -/
theorem simulationTest_setup_before_turns {E : Type} (A : AgentConstructorArgs)
    (fn : SimulationContext → SetupOutcome E)
    (h : (fn (initialContext A)).err = none) :
    (initialContext A).agent = (SimulationAgentRunner.create A).getAgent ∧
    (initialContext A).logs = [] ∧
    (simulationTestBody A fn).err = none ∧
    (∃ rest, (simulationTestBody A fn).trace =
        [TestAction.constructRunner, TestAction.getAgent, TestAction.setupStart,
         TestAction.setupEnd, TestAction.invokeRunAllTurns] ++ rest ∧
      ∀ a ∈ rest, ∃ ev, a = TestAction.agentEvent ev) := by
  refine ⟨rfl, rfl, ?_, ?_⟩
  · simp [simulationTestBody, h]
  · refine ⟨((SimulationAgentRunner.create A).runAllTurns).map TestAction.agentEvent, ?_, ?_⟩
    · simp [simulationTestBody, h]
    · intro a ha
      rcases List.mem_map.1 ha with ⟨ev, _, rfl⟩
      exact ⟨ev, rfl⟩

/-- Witness for C1: a setup callback that completes gives the five ordered
control steps followed only by agent lifecycle events. -/
theorem simulationTest_setup_before_turns_witness :
    (fnOkW (initialContext argsMax3)).err = none ∧
    ((initialContext argsMax3).agent = (SimulationAgentRunner.create argsMax3).getAgent ∧
     (initialContext argsMax3).logs = [] ∧
     (simulationTestBody argsMax3 fnOkW).err = none ∧
     (∃ rest, (simulationTestBody argsMax3 fnOkW).trace =
         [TestAction.constructRunner, TestAction.getAgent, TestAction.setupStart,
          TestAction.setupEnd, TestAction.invokeRunAllTurns] ++ rest ∧
       ∀ a ∈ rest, ∃ ev, a = TestAction.agentEvent ev)) :=
  ⟨rfl, simulationTest_setup_before_turns argsMax3 fnOkW rfl⟩

/-- C8: when the setup callback throws an error, the test body rejects with
that same error, never invokes `runAllTurns()`, and no turn event is ever
emitted. -/
theorem simulationTest_setupError_no_turns {E : Type} (A : AgentConstructorArgs)
    (fn : SimulationContext → SetupOutcome E) (e : E)
    (h : (fn (initialContext A)).err = some e) :
    (simulationTestBody A fn).err = some e ∧
    TestAction.invokeRunAllTurns ∉ (simulationTestBody A fn).trace ∧
    ∀ n, TestAction.agentEvent (AgentEvent.turnStart n) ∉ (simulationTestBody A fn).trace := by
  refine ⟨?_, ?_, ?_⟩ <;> simp [simulationTestBody, h]

/-- Witness for C8: a setup callback that throws "boom" makes the body
reject with "boom" without running any turn. -/
theorem simulationTest_setupError_no_turns_witness :
    (fnErrW (initialContext argsMax3)).err = some "boom" ∧
    ((simulationTestBody argsMax3 fnErrW).err = some "boom" ∧
     TestAction.invokeRunAllTurns ∉ (simulationTestBody argsMax3 fnErrW).trace ∧
     ∀ n, TestAction.agentEvent (AgentEvent.turnStart n) ∉
       (simulationTestBody argsMax3 fnErrW).trace) :=
  ⟨rfl, simulationTest_setupError_no_turns argsMax3 fnErrW "boom" rfl⟩

/-- C10: the logs array handed to the setup callback starts empty, and when
the callback completes the final logs are exactly the callback's own output
threaded through the handlers it registered, one application per emitted
agent event — the test body itself appends nothing. -/
theorem simulationTest_logs_from_setup_only {E : Type} (A : AgentConstructorArgs)
    (fn : SimulationContext → SetupOutcome E)
    (h : (fn (initialContext A)).err = none) :
    (initialContext A).logs = [] ∧
    (simulationTestBody A fn).logs =
      ((SimulationAgentRunner.create A).runAllTurns).foldl
        (fun l ev => (fn (initialContext A)).handler ev l)
        (fn (initialContext A)).logsOut := by
  exact ⟨rfl, by simp [simulationTestBody, h]⟩

/-- Witness for C10: with a completing setup callback that leaves no log and
registers the identity handler, the final logs are empty. -/
theorem simulationTest_logs_from_setup_only_witness :
    (fnOkW (initialContext argsMax3)).err = none ∧
    ((initialContext argsMax3).logs = [] ∧
     (simulationTestBody argsMax3 fnOkW).logs =
       ((SimulationAgentRunner.create argsMax3).runAllTurns).foldl
         (fun l ev => (fnOkW (initialContext argsMax3)).handler ev l)
         (fnOkW (initialContext argsMax3)).logsOut) :=
  ⟨rfl, simulationTest_logs_from_setup_only argsMax3 fnOkW rfl⟩

/-! ## Properties of the message protocol -/

/-- C4: every value of the `ConversationMessage` union is exactly one of the
three shapes — assistant with content, user with content, user stop sentinel
— and no such value carries both a `content` field and a
`stopTokenReturned` field. -/
theorem conversationMessage_three_shapes (m : RawMessage)
    (h : isConversationMessage m = true) :
    ((isAssistantShape m = true ∧ isUserContentShape m = false ∧ isUserStopShape m = false) ∨
     (isAssistantShape m = false ∧ isUserContentShape m = true ∧ isUserStopShape m = false) ∨
     (isAssistantShape m = false ∧ isUserContentShape m = false ∧ isUserStopShape m = true)) ∧
    ¬(m.content.isSome = true ∧ m.stopTokenReturned.isSome = true) := by
  obtain ⟨r, c, st⟩ := m
  cases r <;> rcases c with _ | s <;> rcases st with _ | b <;> (try cases b) <;>
    simp_all [isConversationMessage, isAssistantShape, isUserContentShape, isUserStopShape]

/-- Witness for C4: the stop-sentinel record is in the union, is exactly the
user-stop shape, and does not carry both fields. -/
theorem conversationMessage_three_shapes_witness :
    isConversationMessage rawUserStop = true ∧
    (((isAssistantShape rawUserStop = true ∧ isUserContentShape rawUserStop = false ∧
        isUserStopShape rawUserStop = false) ∨
      (isAssistantShape rawUserStop = false ∧ isUserContentShape rawUserStop = true ∧
        isUserStopShape rawUserStop = false) ∨
      (isAssistantShape rawUserStop = false ∧ isUserContentShape rawUserStop = false ∧
        isUserStopShape rawUserStop = true)) ∧
     ¬(rawUserStop.content.isSome = true ∧ rawUserStop.stopTokenReturned.isSome = true)) :=
  ⟨by decide, conversationMessage_three_shapes rawUserStop (by decide)⟩

/-! ## Properties of the generator interface -/

/-- C5 (amended): every resolved result of `generateResponse`, for every
implementation of `AgentConversationGenerator` and every input, is a
well-formed `ConversationMessage` — one of the three union shapes.  (The
opposite-role part of the original claim is not enforced by the interface;
see the counterexample.) -/
theorem generateResponse_wellFormed (g : AgentConversationGenerator)
    (input r : ConversationMessage)
    (h : g.generateResponse input = Except.ok r) :
    isConversationMessage r.toRaw = true := by
  cases r <;> rfl

/-- Witness for C5 (amended): the echo implementation applied to a user
message resolves with a well-formed message. -/
theorem generateResponse_wellFormed_witness :
    echoGenerator.generateResponse (ConversationMessage.userMsg "hi") =
        Except.ok (ConversationMessage.userMsg "hi") ∧
    isConversationMessage (ConversationMessage.userMsg "hi").toRaw = true :=
  ⟨rfl, generateResponse_wellFormed echoGenerator (ConversationMessage.userMsg "hi")
    (ConversationMessage.userMsg "hi") rfl⟩

/-- Counterexample to C5 as stated: the echo generator is a type-correct
implementation of `AgentConversationGenerator`, yet on the well-formed user
input "hi" it resolves with a message that is neither of the opposite
(assistant) role nor the stop sentinel. -/
theorem generateResponse_opposite_role_cex :
    echoGenerator.generateResponse (ConversationMessage.userMsg "hi") =
        Except.ok (ConversationMessage.userMsg "hi") ∧
    isConversationMessage (ConversationMessage.userMsg "hi").toRaw = true ∧
    (ConversationMessage.userMsg "hi").roleOf = Role.user ∧
    ¬((ConversationMessage.userMsg "hi").roleOf = Role.assistant ∨
      (ConversationMessage.userMsg "hi").isStopSentinel = true) := by
  refine ⟨rfl, by decide, rfl, ?_⟩
  intro hor
  rcases hor with h | h <;> simp [ConversationMessage.roleOf, ConversationMessage.isStopSentinel] at h

/-! ## Properties of the subprocess helper -/

/-- Destructuring `args` out of the options leaves every other property
untouched: looking up a key other than "args" in the rest-object gives the
same value as in the original options. -/
theorem execaOptionsOf_lookup_ne (k : String) (hk : ¬ k = "args") :
    ∀ (options : JSOptions), (execaOptionsOf options).lookupKey k = options.lookupKey k := by
  intro options
  induction options with
  | nil => rfl
  | cons p rest ih =>
    simp only [execaOptionsOf] at ih
    by_cases hp : p.1 = "args"
    · simp [execaOptionsOf, List.filter_cons, hp, JSOptions.lookupKey, ih,
        show ¬ "args" = k from Ne.symm hk]
    · simp [execaOptionsOf, List.filter_cons, hp, JSOptions.lookupKey, ih]

/-- The "args" property is removed by the destructuring: it is never present
on the rest-object handed to the process invoker. -/
theorem execaOptionsOf_lookup_args :
    ∀ (options : JSOptions), (execaOptionsOf options).lookupKey "args" = none := by
  intro options
  induction options with
  | nil => rfl
  | cons p rest ih =>
    simp only [execaOptionsOf] at ih
    by_cases hp : p.1 = "args"
    · simp [execaOptionsOf, List.filter_cons, hp, ih]
    · simp [execaOptionsOf, List.filter_cons, hp, JSOptions.lookupKey, ih]

/-- C9: every property of the options other than `args` is forwarded to the
process invoker and takes precedence over the defaults (being spread after
them), a property left unset falls back to the default, the `args` property
is removed from the forwarded options, and the `args` list is instead
appended to the command-line argument list. -/
theorem runJest_options_forwarding (testFile : String) (options : JSOptions)
    (k : String) (v : JSVal) (hk : ¬ k = "args") :
    (options.lookupKey k = some v → mergedOpts options k = some v) ∧
    (options.lookupKey k = none → mergedOpts options k = defaultsExeca k) ∧
    mergedOpts options "args" = none ∧
    jestArgv testFile options = [jestBinPath, testFile, "--no-color"] ++ argsOf options ∧
    ∀ proc, runJestSimulation testFile options proc =
      execa "node" (jestArgv testFile options) (mergedOpts options) proc := by
  refine ⟨?_, ?_, ?_, rfl, fun proc => rfl⟩
  · intro hv
    unfold mergedOpts
    rw [execaOptionsOf_lookup_ne k hk options, hv]
  · intro hv
    unfold mergedOpts
    rw [execaOptionsOf_lookup_ne k hk options, hv]
  · unfold mergedOpts
    rw [execaOptionsOf_lookup_args options]
    rfl

/-- Witness for C9: a caller-supplied `reject: true` is forwarded and
overrides the default `reject: false`. -/
theorem runJest_options_forwarding_witness :
    ¬ "reject" = "args" ∧
    ((JSOptions.lookupKey [("reject", JSVal.bool true)] "reject" = some (JSVal.bool true) →
        mergedOpts [("reject", JSVal.bool true)] "reject" = some (JSVal.bool true)) ∧
     (JSOptions.lookupKey [("reject", JSVal.bool true)] "reject" = none →
        mergedOpts [("reject", JSVal.bool true)] "reject" = defaultsExeca "reject") ∧
     mergedOpts [("reject", JSVal.bool true)] "args" = none ∧
     jestArgv "example.test.ts" [("reject", JSVal.bool true)] =
       [jestBinPath, "example.test.ts", "--no-color"] ++ argsOf [("reject", JSVal.bool true)] ∧
     ∀ proc, runJestSimulation "example.test.ts" [("reject", JSVal.bool true)] proc =
       execa "node" (jestArgv "example.test.ts" [("reject", JSVal.bool true)])
         (mergedOpts [("reject", JSVal.bool true)]) proc) :=
  ⟨by decide,
   runJest_options_forwarding "example.test.ts" [("reject", JSVal.bool true)] "reject"
     (JSVal.bool true) (by decide)⟩

/-- C6 (amended): for every test file, every subprocess behavior and every
options argument that does not override `reject` with a truthy value,
`runJestSimulation` resolves — even on a non-zero exit status — with a
result carrying the subprocess's exit status and captured stdout and
stderr.  (An options argument overriding `reject` makes it reject; see the
counterexample.) -/
theorem runJest_resolves_without_reject_override (testFile : String) (options : JSOptions)
    (proc : ProcBehavior)
    (hr : ∀ v, (execaOptionsOf options).lookupKey "reject" = some v → v.truthy = false) :
    runJestSimulation testFile options proc =
      Except.ok ⟨proc.exitCode, proc.stdout, proc.stderr, "node", jestArgv testFile options⟩ := by
  have ht : ((mergedOpts options "reject").getD (JSVal.bool true)).truthy = false := by
    unfold mergedOpts
    cases h : (execaOptionsOf options).lookupKey "reject" with
    | none => rfl
    | some v => simpa using hr v h
  simp [runJestSimulation, execa, ht]

/-- Witness for C6 (amended): with empty options, a subprocess exiting with
status 1 still resolves, forwarding the exit status and output. -/
theorem runJest_resolves_without_reject_override_witness :
    (∀ v, (execaOptionsOf ([] : JSOptions)).lookupKey "reject" = some v → v.truthy = false) ∧
    runJestSimulation "example.test.ts" [] ⟨1, "out", "err"⟩ =
      Except.ok ⟨1, "out", "err", "node", jestArgv "example.test.ts" []⟩ :=
  ⟨fun v h => by simp [execaOptionsOf, JSOptions.lookupKey] at h,
   runJest_resolves_without_reject_override "example.test.ts" [] ⟨1, "out", "err"⟩
     (fun v h => by simp [execaOptionsOf, JSOptions.lookupKey] at h)⟩

/-- Counterexample to C6 as stated: with the options argument
`\x7b reject: true \x7d` — spread after the defaults, so overriding
`reject: false` — a subprocess exiting with status 1 makes
`runJestSimulation` reject instead of resolving. -/
theorem runJest_reject_override_rejects :
    runJestSimulation "example.test.ts" [("reject", JSVal.bool true)] ⟨1, "out", "err"⟩ =
      Except.error ⟨1, "out", "err", "node", [jestBinPath, "example.test.ts", "--no-color"]⟩ :=
  rfl

/-- C7: the argument list handed to the process invoker starts with the jest
binary, then the test file, then `--no-color` immediately after it, and only
then the caller-supplied `args` — so color output is suppressed on every
call. -/
theorem runJest_noColor_position (testFile : String) (options : JSOptions) :
    (jestArgv testFile options)[0]? = some jestBinPath ∧
    (jestArgv testFile options)[1]? = some testFile ∧
    (jestArgv testFile options)[2]? = some "--no-color" ∧
    (jestArgv testFile options).drop 3 = argsOf options ∧
    ∀ proc, runJestSimulation testFile options proc =
      execa "node" (jestArgv testFile options) (mergedOpts options) proc := by
  refine ⟨?_, ?_, ?_, ?_, fun _ => rfl⟩ <;> simp [jestArgv]

end Simulacra
